import Mathlib

/-!
Verification development for the cmonster preprocessor core
(src/cmonster/core/preprocessor.cpp).

The C++ code drives a clang preprocessor. The shallow embedding below
models the data the cited functions manipulate: tokens carry a kind,
a spelling, a presumed source location (file unit, line, column) and
the two per-token flags the code reads and writes (leading space,
start of line). The clang macro table is an association list keyed by
macro name; the clang token stream is a list of tokens.
-/

namespace Cmonster

/-- Lexical token kinds used by the embedded fragments of the code. The
C++ side uses the clang kind enumeration; only the kinds the cited code
inspects or constructs are distinguished here, every other kind is
collapsed into a generic punctuation kind. -/
inductive TokKind where
  | identifier
  | l_paren
  | r_paren
  | string_literal
  | numeric_constant
  | punct
  | eof
  | eod
deriving DecidableEq

/-- A presumed source location: owning source unit (clang FileID),
validity flag, 1-based line and column. An invalid location models a
default-constructed clang SourceLocation or a failed presumed-location
resolution. -/
structure SourceLocation where
  fileId : Nat
  isValid : Bool
  line : Nat
  column : Nat
deriving DecidableEq

def SourceLocation.invalid : SourceLocation :=
  { fileId := 0, isValid := false, line := 0, column := 0 }

/-- A token: kind, raw spelling, location and the two flags the code
manipulates. Mirrors cmonster::core::Token wrapping clang::Token. -/
structure Token where
  kind : TokKind
  spelling : String
  loc : SourceLocation
  leadingSpace : Bool
  startOfLine : Bool
deriving DecidableEq

/-- A macro descriptor, mirroring the fields of clang MacroInfo that
PreprocessorImpl reads and writes: function-like flag, C99-varargs
flag, parameter identifier list, body token list and the definition
end location. -/
structure MacroInfo where
  isFunctionLike : Bool
  isC99Varargs : Bool
  args : List String
  body : List Token
  endLoc : SourceLocation
deriving DecidableEq

/-- The macro table: an association list from macro names to
descriptors, mirroring the clang Preprocessor macro map. -/
abbrev MacroTable := List (String × MacroInfo)

/-- Lookup in the macro table (clang Preprocessor getMacroInfo). -/
def getMacroInfo : MacroTable → String → Option MacroInfo
  | [], _ => none
  | (n, mi) :: rest, name => if n = name then some mi else getMacroInfo rest name

/-- Insertion into the macro table (clang Preprocessor setMacroInfo).
The cited code only calls it for names that are not yet present. -/
def setMacroInfo (mt : MacroTable) (name : String) (mi : MacroInfo) : MacroTable :=
  (name, mi) :: mt

/-- Modelled from the spec: body-token identity used by clang
MacroInfo.isIdenticalTo, which is external to the repository. Per the
spec (section 3), two bodies are identical when they have the same
length and tokens agree pairwise on kind and spelling, with the
whitespace and start-of-line flags also required to agree on every
token after the first. The index argument tracks the position so the
first token is exempt from the flag comparison. -/
def tokensIdenticalFrom : Nat → List Token → List Token → Bool
  | _, [], [] => true
  | i, a :: as, b :: bs =>
      (a.kind == b.kind) &&
      (i == 0 || (a.startOfLine == b.startOfLine && a.leadingSpace == b.leadingSpace)) &&
      (a.spelling == b.spelling) &&
      tokensIdenticalFrom (i + 1) as bs
  | _, _, _ => false

/-- Modelled from the spec: macro-definition identity (clang
MacroInfo.isIdenticalTo, external to the repository). Same
function-like and variadic flags, same parameter name sequence, and
identical body token sequences. -/
def MacroInfo.isIdenticalTo (a b : MacroInfo) : Bool :=
  (a.isFunctionLike == b.isFunctionLike) &&
  (a.isC99Varargs == b.isC99Varargs) &&
  (a.args == b.args) &&
  tokensIdenticalFrom 0 a.body b.body

/-- The parameter identifier list built by add_macro_definition: when
the trailing argument is the literal three-dot string, the fixed
parameters are all arguments but the last, and the synthetic name
__VA_ARGS__ takes the place of the trailing variadic parameter. -/
def macroArgIdentifiers (args : List String) : List String :=
  if args.getLast? == some "..." then args.dropLast ++ ["__VA_ARGS__"] else args

/-- The macro descriptor built by PreprocessorImpl add_macro_definition
before the redefinition check: clang AllocateMacroInfo yields a
descriptor with a default (invalid) location; the function-like flag,
the C99-varargs flag (set when the trailing argument is the literal
three-dot string) and the parameter identifiers are set only on the
function-like path; body tokens are appended verbatim; the definition
end location is set to the last body token location only when the body
is non-empty, otherwise it keeps the default invalid location. -/
def buildMacro (value_tokens : List Token) (args : List String)
    (is_function : Bool) : MacroInfo :=
  { isFunctionLike := is_function
    isC99Varargs := is_function && (args.getLast? == some "...")
    args := if is_function then macroArgIdentifiers args else []
    body := value_tokens
    endLoc :=
      match value_tokens.getLast? with
      | some t => t.loc
      | none => SourceLocation.invalid }

/-- PreprocessorImpl add_macro_definition: build the new descriptor;
if a macro of the same name already exists, return whether the new
descriptor is identical to the existing one and leave the table
unchanged (the new descriptor is destroyed); otherwise install the new
descriptor and return true. -/
def add_macro_definition (mt : MacroTable) (name : String)
    (value_tokens : List Token) (args : List String) (is_function : Bool) :
    Bool × MacroTable :=
  let mi := buildMacro value_tokens args is_function
  match getMacroInfo mt name with
  | some existing => (mi.isIdenticalTo existing, mt)
  | none => (true, setMacroInfo mt name mi)

/-- A dynamic macro callback (cmonster FunctionMacro): a function from
the captured argument tokens to the replacement tokens. -/
def Callback := List Token → List Token

/-- A registered pragma handler entry: optional namespace (the code
registers dynamic handlers under the cmonster namespace when
with_namespace is set, and at top level otherwise), handler name, and
the wrapped callback. -/
structure PragmaHandlerEntry where
  nspace : Option String
  name : String
  handler : Callback

/-- The preprocessor state visible to the dynamic-macro registration
path: the macro table and the list of registered pragma handlers (in
registration order). -/
structure PPState where
  macros : MacroTable
  pragmaHandlers : List PragmaHandlerEntry

/-- PreprocessorImpl add_pragma: when the callback is set, append a
DynamicPragmaHandler for the name (under the cmonster namespace when
with_namespace holds) and return true; when the callback is unset,
return false and change nothing. -/
def add_pragma (st : PPState) (name : String) (function : Option Callback)
    (with_namespace : Bool) : Bool × PPState :=
  match function with
  | some f =>
      (true,
        { st with
          pragmaHandlers := st.pragmaHandlers ++
            [{ nspace := if with_namespace then some "cmonster" else none
               name := name
               handler := f }] })
  | none => (false, st)

/-- A token created by clang Preprocessor CreateString inside
add_macro_function: fresh flags (startToken), given kind and spelling.
The scratch-buffer location CreateString assigns is not observed by
any claim and is modelled as the invalid location. -/
def createdToken (kind : TokKind) (spelling : String) : Token :=
  { kind := kind
    spelling := spelling
    loc := SourceLocation.invalid
    leadingSpace := false
    startOfLine := false }

/-- The body token sequence add_macro_function builds for a dynamic
macro named name, token by token as in the source:
_CMONSTER_PRAGMA ( cmonster_pragma __VA_ARGS__ ) followed by
_Pragma ( "cmonster name" ). The __VA_ARGS__ token carries the
leading-space flag; the others are created fresh. -/
def dynamicMacroBody (name : String) : List Token :=
  [ createdToken TokKind.identifier "_CMONSTER_PRAGMA",
    createdToken TokKind.l_paren "(",
    createdToken TokKind.identifier "cmonster_pragma",
    { createdToken TokKind.identifier "__VA_ARGS__" with leadingSpace := true },
    createdToken TokKind.r_paren ")",
    createdToken TokKind.identifier "_Pragma",
    createdToken TokKind.l_paren "(",
    createdToken TokKind.string_literal ("\"cmonster " ++ name ++ "\""),
    createdToken TokKind.r_paren ")" ]

/-- The macro descriptor add_macro_function installs for a dynamic
macro: function-like, C99-variadic, single parameter __VA_ARGS__, and
the disguised pragma body. The definition end location is set to the
location of the final created right-paren token (a scratch-buffer
location, modelled invalid). -/
def dynamicMacro (name : String) : MacroInfo :=
  { isFunctionLike := true
    isC99Varargs := true
    args := ["__VA_ARGS__"]
    body := dynamicMacroBody name
    endLoc := SourceLocation.invalid }

/-- The outcome of PreprocessorImpl add_macro_function: a returned
boolean, or a thrown C++ exception carrying a message. -/
inductive DefineDynamicResult where
  | ok (value : Bool)
  | error (msg : String)
deriving DecidableEq

/-- PreprocessorImpl add_macro_function: if the callback is set,
add_pragma registers the per-name handler first (and returns true);
only then is the macro table consulted: if the name is already bound
the function throws a Macro already defined runtime error, leaving the
handler registered; otherwise the disguised variadic macro is
installed and true is returned. An unset callback short-circuits to
false without touching any state. -/
def add_macro_function (st : PPState) (name : String)
    (function : Option Callback) : DefineDynamicResult × PPState :=
  match function with
  | none => (DefineDynamicResult.ok false, st)
  | some f =>
      let r := add_pragma st name (some f) true
      if r.1 then
        match getMacroInfo r.2.macros name with
        | some _ => (DefineDynamicResult.error "Macro already defined", r.2)
        | none =>
            (DefineDynamicResult.ok true,
              { r.2 with macros := setMacroInfo r.2.macros name (dynamicMacro name) })
      else (DefineDynamicResult.ok false, r.2)

/-- The token-stream state a firing pragma handler sees: the remaining
tokens of its own directive (terminated by an end-of-directive token),
the capture mailbox (the token_saver tokens vector), and the front of
the pending token stream the preprocessor will lex next. -/
structure PragmaFireState where
  directive : List Token
  mailbox : List Token
  pending : List Token

/-- Split a directive token list at the first end-of-directive token:
the tokens before it and the tokens after it (the eod itself is
consumed). Models the lex-until-eod loops in both pragma handlers. -/
def splitAtEod : List Token → List Token × List Token
  | [] => ([], [])
  | t :: ts =>
      if t.kind == TokKind.eod then ([], ts)
      else
        let r := splitAtEod ts
        (t :: r.1, r.2)

/-- The remainder of a directive after consuming every token up to and
including the first end-of-directive token (the discard loop of
DynamicPragmaHandler HandlePragma). -/
def consumeToEod : List Token → List Token
  | [] => []
  | t :: ts => if t.kind == TokKind.eod then ts else consumeToEod ts

/-- TokenSaverPragmaHandler HandlePragma: clear the mailbox, then lex
and store every directive token up to end-of-directive. -/
def handlePragmaTokenSaver (st : PragmaFireState) : PragmaFireState :=
  let r := splitAtEod st.directive
  { directive := r.2, mailbox := r.1, pending := st.pending }

/-- Marking a token with the leading-whitespace flag
(clang Token setFlag LeadingSpace). -/
def setLeadingSpaceFlag (t : Token) : Token := { t with leadingSpace := true }

/-- The token array DynamicPragmaHandler builds before re-entry: the
first result token is copied unchanged, every later one gets the
leading-space flag; EnterTokenStream splices the array to the front of
the pending stream. -/
def enterTokenStream (result : List Token) (pending : List Token) : List Token :=
  match result with
  | [] => pending
  | t :: ts => (t :: ts.map setLeadingSpaceFlag) ++ pending

/-- DynamicPragmaHandler HandlePragma: discard the remaining directive
tokens up to end-of-directive, invoke the stored callback on the saved
mailbox tokens, and when the result is non-empty splice it to the
front of the pending stream via EnterTokenStream; an empty result
splices nothing. -/
def handlePragmaDynamic (f : Callback) (st : PragmaFireState) : PragmaFireState :=
  let directive1 := consumeToEod st.directive
  let result := f st.mailbox
  if result.isEmpty then
    { st with directive := directive1 }
  else
    { st with directive := directive1, pending := enterTokenStream result st.pending }

/-- The expanded-token source the iterator pulls from: the sequence of
fully macro-expanded tokens clang Preprocessor Lex produces for the
main input; once exhausted, Lex yields end-of-file tokens forever. -/
structure LexState where
  tokens : List Token

/-- The end-of-file sentinel token. -/
def eofToken : Token :=
  { kind := TokKind.eof
    spelling := ""
    loc := SourceLocation.invalid
    leadingSpace := false
    startOfLine := false }

/-- One clang Preprocessor Lex call on the expanded stream: the next
token and the advanced stream, or the eof sentinel once exhausted. -/
def lexExpanded : LexState → Token × LexState
  | { tokens := [] } => (eofToken, { tokens := [] })
  | { tokens := t :: ts } => (t, { tokens := ts })

/-- TokenIteratorImpl state: the remaining preprocessor stream, the
current token slot (set once next has been called at least once) and
the pre-fetched lookahead token m_next. -/
structure TokenIteratorImpl where
  pp : LexState
  m_current : Option Token
  m_next : Token

/-- The TokenIteratorImpl constructor: pre-fetch the first token into
m_next with a fully expanding Lex. (Preprocessor create_iterator
enters the main source file exactly once and then constructs this.) -/
def TokenIteratorImpl.create (pp0 : LexState) : TokenIteratorImpl :=
  let r := lexExpanded pp0
  { pp := r.2, m_current := none, m_next := r.1 }

/-- TokenIteratorImpl has_next: the pre-fetched token is not eof. -/
def TokenIteratorImpl.has_next (it : TokenIteratorImpl) : Bool :=
  !(it.m_next.kind == TokKind.eof)

/-- TokenIteratorImpl next: the current token becomes the pre-fetched
one and is returned, and the following token is pre-fetched with a
fully expanding Lex. -/
def TokenIteratorImpl.next (it : TokenIteratorImpl) : Token × TokenIteratorImpl :=
  let cur := it.m_next
  let r := lexExpanded it.pp
  (cur, { pp := r.2, m_current := some cur, m_next := r.1 })

/-- The loop guard of Preprocessor tokenize: a token belongs to the
ephemeral unit when it is not the eof sentinel and its location
resolves to the freshly created file id. -/
def tokenFromUnit (fid : Nat) (t : Token) : Bool :=
  !(t.kind == TokKind.eof) && (t.loc.fileId == fid)

/-- The lexing loop of Preprocessor tokenize: peek the next raw token
and collect it (LexUnexpandedToken) while it is neither eof nor from a
different source unit; stop at the first token failing the guard. -/
def tokenizeLoop (fid : Nat) : List Token → List Token
  | [] => []
  | t :: ts => if tokenFromUnit fid t then t :: tokenizeLoop fid ts else []

/-- Preprocessor tokenize, shallowly embedded. The external clang
lexer turns the input string s into the raw unexpanded token list
unitTokens, every token carrying the fresh file id fid; queued models
tokens already pending from other source units behind the ephemeral
buffer. The entered flag models the file-change-callback check that
the memory buffer was actually entered (its failure returns an empty
result). A null or empty input returns an empty result before
anything else happens. The secondary-preprocessor re-interning path
only rebinds clang IdentifierInfo pointers of identical spelling and
is the identity on this token model. -/
def tokenize (s : String) (fid : Nat) (entered : Bool)
    (unitTokens queued : List Token) : List Token :=
  if s.isEmpty then []
  else if !entered then []
  else tokenizeLoop fid (unitTokens ++ queued)

/-- A string of n copies of one character. -/
def repChar (n : Nat) (c : Char) : String := String.mk (List.replicate n c)

/-- The newline character. -/
def nlChar : Char := Char.ofNat 10

/-- The space character. -/
def spChar : Char := Char.ofNat 32

/-- The loop of Preprocessor format, with the cursor state passed
explicitly: current_line (0 meaning not yet started, as in the code
comment) and current_column (initialized to 1). For a token with a
resolvable presumed location: when its line exceeds the cursor line,
newlines are emitted and the column resets to 1 only if the cursor has
started (current_line positive), and the cursor line becomes the token
line either way; when the column exceeds the cursor column, spaces are
emitted; then the spelling is emitted and the cursor column advances
by the token length (its spelling length in this model). A token
whose location does not resolve is skipped entirely. -/
def formatGo : Nat → Nat → List Token → String
  | _, _, [] => ""
  | current_line, current_column, t :: ts =>
      if t.loc.isValid then
        let line := t.loc.line
        let column := t.loc.column
        let nl : String :=
          if line > current_line ∧ 0 < current_line then
            repChar (line - current_line) nlChar
          else ""
        let cc1 : Nat :=
          if line > current_line ∧ 0 < current_line then 1 else current_column
        let cl1 : Nat := if line > current_line then line else current_line
        let sp : String := if column > cc1 then repChar (column - cc1) spChar else ""
        let cc2 : Nat := if column > cc1 then column else cc1
        nl ++ sp ++ t.spelling ++ formatGo cl1 (cc2 + t.spelling.length) ts
      else formatGo current_line current_column ts

/-- Preprocessor format: walk the tokens with the cursor initialized
to line 0 (not yet started) and column 1. -/
def format (tokens : List Token) : String := formatGo 0 1 tokens

/-- The claim C7 formula taken literally: the cursor starts at line 0
and column 1, and whenever a resolvable token line exceeds the cursor
line the formatter emits (line - cursorLine) newlines and resets the
column to 1 - with no special case for the not-yet-started cursor. -/
def formatClaimGo : Nat → Nat → List Token → String
  | _, _, [] => ""
  | current_line, current_column, t :: ts =>
      if t.loc.isValid then
        let line := t.loc.line
        let column := t.loc.column
        let nl : String :=
          if line > current_line then repChar (line - current_line) nlChar else ""
        let cc1 : Nat := if line > current_line then 1 else current_column
        let cl1 : Nat := if line > current_line then line else current_line
        let sp : String := if column > cc1 then repChar (column - cc1) spChar else ""
        let cc2 : Nat := if column > cc1 then column else cc1
        nl ++ sp ++ t.spelling ++ formatClaimGo cl1 (cc2 + t.spelling.length) ts
      else formatClaimGo current_line current_column ts

/-- The claim C7 formula as a whole-sequence function. -/
def formatClaim (tokens : List Token) : String := formatClaimGo 0 1 tokens

/-- The amended claim C7 layout walk, written from the amended words:
the line cursor is an Option, none meaning not yet started. Before the
first emitted token no newlines are emitted and the column cursor
(initialized to 1) is not reset; from then on the newline rule of the
claim applies verbatim. -/
def formatAmendedGo : Option Nat → Nat → List Token → String
  | _, _, [] => ""
  | startedLine, current_column, t :: ts =>
      if t.loc.isValid then
        let line := t.loc.line
        let column := t.loc.column
        match startedLine with
        | none =>
            let sp : String :=
              if column > current_column then repChar (column - current_column) spChar else ""
            let cc2 : Nat := if column > current_column then column else current_column
            sp ++ t.spelling ++ formatAmendedGo (some line) (cc2 + t.spelling.length) ts
        | some cl =>
            let nl : String := if line > cl then repChar (line - cl) nlChar else ""
            let cc1 : Nat := if line > cl then 1 else current_column
            let cl1 : Nat := if line > cl then line else cl
            let sp : String := if column > cc1 then repChar (column - cc1) spChar else ""
            let cc2 : Nat := if column > cc1 then column else cc1
            nl ++ sp ++ t.spelling ++ formatAmendedGo (some cl1) (cc2 + t.spelling.length) ts
      else formatAmendedGo startedLine current_column ts

/-- The amended claim C7 layout walk as a whole-sequence function. -/
def formatAmended (tokens : List Token) : String := formatAmendedGo none 1 tokens

/-- First index, counting from i, at which character c occurs in the
list (std string find with a start position). -/
def findCharIdx (c : Char) : List Char → Nat → Option Nat
  | [], _ => none
  | x :: xs, i => if x = c then some i else findCharIdx c xs (i + 1)

/-- std string find of character c starting at position i. -/
def findCharFrom (chars : List Char) (c : Char) (i : Nat) : Option Nat :=
  findCharIdx c (chars.drop i) i

/-- The space-skipping inner loop of Preprocessor define: advance
start while it is below rparen and the character there is a space. -/
def skipSpaces (chars : List Char) (rparen : Nat) (start : Nat) : Nat :=
  if h : start < rparen ∧ chars.getD start spChar = spChar then
    skipSpaces chars rparen (start + 1)
  else start
termination_by rparen - start
decreasing_by
  exact Nat.sub_lt_sub_left h.1 (Nat.lt_succ_self start)

/-- The trailing-space trimming loop of Preprocessor define: decrease
e while it is above start and the character there is a space. -/
def trimBack (chars : List Char) (start : Nat) (e : Nat) : Nat :=
  if e > start ∧ chars.getD e spChar = spChar then trimBack chars start (e - 1)
  else e
termination_by e
decreasing_by
  rename_i h
  exact Nat.sub_lt (Nat.lt_of_le_of_lt (Nat.zero_le start) h.1) Nat.one_pos

/-- name.substr(start, e - start + 1), where the count is computed in
size_t arithmetic: when e + 1 is below start (the trimmed-empty case)
the count wraps to zero, which truncated Nat subtraction reproduces. -/
def substrArg (chars : List Char) (start e : Nat) : String :=
  String.mk ((chars.drop start).take (e + 1 - start))

theorem le_skipSpaces (chars : List Char) (rparen : Nat) :
    ∀ start, start ≤ skipSpaces chars rparen start := by
  have H : ∀ n start, rparen - start ≤ n → start ≤ skipSpaces chars rparen start := by
    intro n
    induction n with
    | zero =>
        intro start hle
        rw [skipSpaces]
        split
        · rename_i hc
          exact absurd hc.1 (by omega)
        · exact Nat.le_refl start
    | succ n ih =>
        intro start hle
        rw [skipSpaces]
        split
        · rename_i hc
          have := ih (start + 1) (by omega)
          omega
        · exact Nat.le_refl start
  intro start
  exact H (rparen - start) start (Nat.le_refl _)

theorem findCharIdx_ge (c : Char) :
    ∀ (l : List Char) (i j : Nat), findCharIdx c l i = some j → i ≤ j := by
  intro l
  induction l with
  | nil => intro i j h; exact absurd h (by simp [findCharIdx])
  | cons x xs ih =>
      intro i j h
      rw [findCharIdx] at h
      split at h
      · cases h; exact Nat.le_refl _
      · have := ih (i + 1) j h
        omega

theorem findCharFrom_ge (chars : List Char) (c : Char) (i j : Nat)
    (h : findCharFrom chars c i = some j) : i ≤ j :=
  findCharIdx_ge c (chars.drop i) i j h

/-- The comma-splitting loop of Preprocessor define, over the
characters of the signature between the parens: skip spaces; a comma
at the cursor is a syntax error (thrown std invalid_argument); then
the argument runs to the next comma (or to rparen), with trailing
spaces trimmed; repeat after the comma. The thrown message is
abridged to avoid quoting. -/
def parseArgsLoop (chars : List Char) (rparen : Nat) (start : Nat) :
    Except String (List String) :=
  if _h : start < rparen then
    if chars.getD (skipSpaces chars rparen start) spChar = ',' then
      Except.error ("Expected character other than comma at column " ++
        toString (skipSpaces chars rparen start))
    else
      match hfind : findCharFrom chars ',' (skipSpaces chars rparen start + 1) with
      | none =>
          Except.ok [substrArg chars (skipSpaces chars rparen start)
            (trimBack chars (skipSpaces chars rparen start) (rparen - 1))]
      | some comma =>
          match parseArgsLoop chars rparen (comma + 1) with
          | Except.ok rest =>
              Except.ok (substrArg chars (skipSpaces chars rparen start)
                (trimBack chars (skipSpaces chars rparen start) (comma - 1)) :: rest)
          | Except.error msg => Except.error msg
  else Except.ok []
termination_by rparen - start
decreasing_by
  have h1 : start ≤ skipSpaces chars rparen start := le_skipSpaces chars rparen start
  have h2 := findCharFrom_ge chars ',' (skipSpaces chars rparen start + 1) comma hfind
  omega

/-- The outcome of Preprocessor define: a returned boolean together
with the resulting macro table, or a thrown exception carrying a
message (in which case the caller keeps its unchanged table). -/
inductive DefineOutcome where
  | ok (value : Bool) (table : MacroTable)
  | error (msg : String)
deriving DecidableEq

/-- Preprocessor define (string signature overload), with the value
already tokenized (the facade tokenizes the value text through the
external lexer before this logic runs). If the name ends with a
closing paren it must contain an opening paren (otherwise a thrown
invalid_argument); the parameter names between the parens are split
at commas with surrounding spaces stripped, and the macro is defined
function-like under the name prefix before the opening paren.
Otherwise the whole name defines an object-like macro with no
parameters. -/
def define (mt : MacroTable) (name : String) (value_tokens : List Token) :
    DefineOutcome :=
  let chars := name.toList
  if chars.getLast? = some ')' then
    match findCharFrom chars '(' 0 with
    | none =>
        DefineOutcome.error "Name ends with a closing paren but has no matching opening paren"
    | some lparen =>
        let rparen := chars.length - 1
        match parseArgsLoop chars rparen (lparen + 1) with
        | Except.error msg => DefineOutcome.error msg
        | Except.ok arg_names =>
            let r := add_macro_definition mt (String.mk (chars.take lparen))
                value_tokens arg_names true
            DefineOutcome.ok r.1 r.2
  else
    let r := add_macro_definition mt name value_tokens [] false
    DefineOutcome.ok r.1 r.2

/-! Concrete fixtures used by witnesses and counterexamples. -/

/-- A sample valid source location. -/
def locAt (fid line col : Nat) : SourceLocation :=
  { fileId := fid, isValid := true, line := line, column := col }

/-- A sample identifier token with a valid location. -/
def identTok (s : String) (fid line col : Nat) : Token :=
  { kind := TokKind.identifier
    spelling := s
    loc := locAt fid line col
    leadingSpace := false
    startOfLine := false }

/-- A sample end-of-directive token. -/
def eodTok : Token :=
  { kind := TokKind.eod
    spelling := ""
    loc := SourceLocation.invalid
    leadingSpace := false
    startOfLine := false }

/-- The identity callback. -/
def cbId : Callback := fun ts => ts

/-- A sample object-like macro descriptor. -/
def objMacroFOO : MacroInfo := buildMacro [] [] false

/-- A sample preprocessor state in which the name FOO is already bound
to an object-like macro and no pragma handlers are registered. -/
def stFOO : PPState :=
  { macros := [("FOO", objMacroFOO)], pragmaHandlers := [] }

/-! The claims. -/

/-- Claim C1: when define is called while a macro of the same name
already exists in the table, it returns true exactly when the newly
built definition is identical to the existing one, and in both cases
the macro table is left unchanged, so the prior definition still
governs subsequent expansion; no silent overwriting. -/
theorem add_macro_definition_redefinition (mt : MacroTable) (name : String)
    (value_tokens : List Token) (args : List String) (is_function : Bool)
    (existing : MacroInfo) (h : getMacroInfo mt name = some existing) :
    (add_macro_definition mt name value_tokens args is_function).2 = mt ∧
    ((add_macro_definition mt name value_tokens args is_function).1 = true ↔
      (buildMacro value_tokens args is_function).isIdenticalTo existing = true) := by
  simp [add_macro_definition, h]

theorem add_macro_definition_redefinition_witness :
    getMacroInfo stFOO.macros "FOO" = some objMacroFOO ∧
    ((add_macro_definition stFOO.macros "FOO" [] [] false).2 = stFOO.macros ∧
     ((add_macro_definition stFOO.macros "FOO" [] [] false).1 = true ↔
       (buildMacro [] [] false).isIdenticalTo objMacroFOO = true)) :=
  ⟨by decide,
   add_macro_definition_redefinition stFOO.macros "FOO" [] [] false objMacroFOO (by decide)⟩

/-- Claim C8, amended: a trailing literal three-dot parameter marks the
macro C99-variadic, consumes no fixed parameter slot and is replaced by
the synthetic __VA_ARGS__ name; the recorded definition end location is
the last body token location when the body is non-empty, and stays the
default invalid location when the body is empty (the macro name
location is never recorded). -/
theorem buildMacro_variadic_and_endLoc (value_tokens : List Token)
    (args : List String) (hvar : args.getLast? = some "...") :
    (buildMacro value_tokens args true).isC99Varargs = true ∧
    (buildMacro value_tokens args true).args = args.dropLast ++ ["__VA_ARGS__"] ∧
    (∀ t, value_tokens.getLast? = some t →
      (buildMacro value_tokens args true).endLoc = t.loc) ∧
    (value_tokens = [] →
      (buildMacro value_tokens args true).endLoc = SourceLocation.invalid) := by
  refine ⟨?_, ?_, ?_, ?_⟩
  · simp [buildMacro, hvar]
  · simp [buildMacro, macroArgIdentifiers, hvar]
  · intro t ht; simp [buildMacro, ht]
  · intro hnil; subst hnil; simp [buildMacro]

theorem buildMacro_variadic_and_endLoc_witness :
    (["a", "..."].getLast? = some "...") ∧
    ((buildMacro [identTok "y" 1 2 3] ["a", "..."] true).isC99Varargs = true ∧
     (buildMacro [identTok "y" 1 2 3] ["a", "..."] true).args = ["a", "__VA_ARGS__"] ∧
     (buildMacro [identTok "y" 1 2 3] ["a", "..."] true).endLoc = locAt 1 2 3) :=
  ⟨by decide,
   (buildMacro_variadic_and_endLoc [identTok "y" 1 2 3] ["a", "..."] (by decide)).1,
   (buildMacro_variadic_and_endLoc [identTok "y" 1 2 3] ["a", "..."] (by decide)).2.1,
   (buildMacro_variadic_and_endLoc [identTok "y" 1 2 3] ["a", "..."] (by decide)).2.2.1
     (identTok "y" 1 2 3) (by decide)⟩

/-- Claim C8 counterexample: a macro built by define from an empty body
records the default invalid end location, not the macro name location
(no name location is ever passed to the builder), refuting the claim
that the empty-body end location is the name location. -/
theorem buildMacro_emptyBody_endLoc_counterexample :
    (buildMacro [] ["a", "..."] true).endLoc = SourceLocation.invalid ∧
    (buildMacro [] ["a", "..."] true).endLoc ≠ locAt 1 5 2 := by
  constructor
  · rfl
  · decide

/-- Claim C2, amended: defineDynamic returns false when the callback is
unset; when the callback is set but the name is already bound to any
macro (including one created by a prior dynamic registration), it
throws a Macro already defined exception rather than returning false;
it returns true only when the name is fresh and the callback set. -/
theorem add_macro_function_outcomes (st : PPState) (name : String) :
    (add_macro_function st name none).1 = DefineDynamicResult.ok false ∧
    (∀ (f : Callback) (mi : MacroInfo), getMacroInfo st.macros name = some mi →
      (add_macro_function st name (some f)).1 =
        DefineDynamicResult.error "Macro already defined") ∧
    (∀ f : Callback, getMacroInfo st.macros name = none →
      (add_macro_function st name (some f)).1 = DefineDynamicResult.ok true) := by
  refine ⟨rfl, ?_, ?_⟩
  · intro f mi h
    simp [add_macro_function, add_pragma, h]
  · intro f h
    simp [add_macro_function, add_pragma, h]

theorem add_macro_function_outcomes_witness :
    (add_macro_function stFOO "BAR" none).1 = DefineDynamicResult.ok false ∧
    (add_macro_function stFOO "FOO" (some cbId)).1 =
      DefineDynamicResult.error "Macro already defined" ∧
    (add_macro_function stFOO "BAR" (some cbId)).1 = DefineDynamicResult.ok true :=
  ⟨(add_macro_function_outcomes stFOO "BAR").1,
   (add_macro_function_outcomes stFOO "FOO").2.1 cbId objMacroFOO (by decide),
   (add_macro_function_outcomes stFOO "BAR").2.2 cbId (by decide)⟩

/-- Claim C2 counterexample: with the name FOO already bound,
defineDynamic with a set callback throws (modelled as an error
outcome) instead of returning the boolean failure the claim states. -/
theorem defineDynamic_conflict_counterexample :
    (add_macro_function stFOO "FOO" (some cbId)).1 =
      DefineDynamicResult.error "Macro already defined" ∧
    (add_macro_function stFOO "FOO" (some cbId)).1 ≠ DefineDynamicResult.ok false := by
  constructor
  · rfl
  · decide

/-- Claim C3: a successful defineDynamic installs, for the given name,
a function-like C99-variadic macro whose single parameter is
__VA_ARGS__ and whose body is exactly the nine-token sequence
_CMONSTER_PRAGMA ( cmonster_pragma __VA_ARGS__ ) _Pragma
( "cmonster name" ). -/
theorem add_macro_function_disguise (st : PPState) (name : String) (f : Callback)
    (hfresh : getMacroInfo st.macros name = none) :
    (add_macro_function st name (some f)).1 = DefineDynamicResult.ok true ∧
    getMacroInfo (add_macro_function st name (some f)).2.macros name =
      some (dynamicMacro name) ∧
    (dynamicMacro name).isFunctionLike = true ∧
    (dynamicMacro name).isC99Varargs = true ∧
    (dynamicMacro name).args = ["__VA_ARGS__"] ∧
    (dynamicMacro name).body.map Token.spelling =
      ["_CMONSTER_PRAGMA", "(", "cmonster_pragma", "__VA_ARGS__", ")",
       "_Pragma", "(", "\"cmonster " ++ name ++ "\"", ")"] ∧
    (dynamicMacro name).body.map Token.kind =
      [TokKind.identifier, TokKind.l_paren, TokKind.identifier, TokKind.identifier,
       TokKind.r_paren, TokKind.identifier, TokKind.l_paren, TokKind.string_literal,
       TokKind.r_paren] := by
  refine ⟨?_, ?_, rfl, rfl, rfl, rfl, rfl⟩
  · simp [add_macro_function, add_pragma, hfresh]
  · simp [add_macro_function, add_pragma, hfresh, setMacroInfo, getMacroInfo]

theorem add_macro_function_disguise_witness :
    getMacroInfo stFOO.macros "bar" = none ∧
    ((add_macro_function stFOO "bar" (some cbId)).1 = DefineDynamicResult.ok true ∧
     getMacroInfo (add_macro_function stFOO "bar" (some cbId)).2.macros "bar" =
       some (dynamicMacro "bar")) :=
  ⟨by decide,
   (add_macro_function_disguise stFOO "bar" cbId (by decide)).1,
   (add_macro_function_disguise stFOO "bar" cbId (by decide)).2.1⟩

/-- Claim C10: when defineDynamic is invoked with a set callback for a
name that is already bound, the per-name handler has already been
registered under the cmonster pragma namespace before the conflict is
detected: the failing call leaves the pragma-handler list extended by
that handler, so the conflict check is not atomic with respect to
handler registration. -/
theorem add_macro_function_nonatomic (st : PPState) (name : String) (f : Callback)
    (mi : MacroInfo) (h : getMacroInfo st.macros name = some mi) :
    (add_macro_function st name (some f)).1 =
      DefineDynamicResult.error "Macro already defined" ∧
    (add_macro_function st name (some f)).2.pragmaHandlers =
      st.pragmaHandlers ++
        [{ nspace := some "cmonster", name := name, handler := f }] := by
  constructor
  · simp [add_macro_function, add_pragma, h]
  · simp [add_macro_function, add_pragma, h]

theorem add_macro_function_nonatomic_witness :
    getMacroInfo stFOO.macros "FOO" = some objMacroFOO ∧
    (add_macro_function stFOO "FOO" (some cbId)).2.pragmaHandlers =
      stFOO.pragmaHandlers ++
        [{ nspace := some "cmonster", name := "FOO", handler := cbId }] :=
  ⟨by decide,
   (add_macro_function_nonatomic stFOO "FOO" cbId objMacroFOO (by decide)).2⟩

/-- Claim C4: when the per-name dynamic pragma handler fires it first
consumes its own directive tokens up to end-of-directive, invokes the
callback on exactly the mailbox tokens, and splices the result tokens
to the front of the pending stream if and only if the result is
non-empty, with every token after the first marked with the
leading-whitespace flag and the first token unchanged. -/
theorem dynamicPragma_dispatch (f : Callback) (st : PragmaFireState) :
    (handlePragmaDynamic f st).directive = consumeToEod st.directive ∧
    (handlePragmaDynamic f st).mailbox = st.mailbox ∧
    (f st.mailbox = [] → (handlePragmaDynamic f st).pending = st.pending) ∧
    (∀ t ts, f st.mailbox = t :: ts →
      (handlePragmaDynamic f st).pending =
        (t :: ts.map setLeadingSpaceFlag) ++ st.pending) := by
  refine ⟨?_, ?_, ?_, ?_⟩
  · by_cases hres : (f st.mailbox).isEmpty <;> simp [handlePragmaDynamic, hres]
  · by_cases hres : (f st.mailbox).isEmpty <;> simp [handlePragmaDynamic, hres]
  · intro h; simp [handlePragmaDynamic, h]
  · intro t ts h; simp [handlePragmaDynamic, h, enterTokenStream]

/-- A callback returning a fixed two-token result, used to exercise the
dispatch theorem. -/
def cbConst : Callback := fun _ => [identTok "a" 2 1 1, identTok "b" 2 1 3]

/-- A sample pragma firing state. -/
def fireSt : PragmaFireState :=
  { directive := [eodTok]
    mailbox := [identTok "m" 2 1 1]
    pending := [identTok "p" 2 2 1] }

theorem dynamicPragma_dispatch_witness :
    cbConst fireSt.mailbox = identTok "a" 2 1 1 :: [identTok "b" 2 1 3] ∧
    (handlePragmaDynamic cbConst fireSt).pending =
      (identTok "a" 2 1 1 :: [identTok "b" 2 1 3].map setLeadingSpaceFlag) ++
        fireSt.pending :=
  ⟨rfl,
   (dynamicPragma_dispatch cbConst fireSt).2.2.2
     (identTok "a" 2 1 1) [identTok "b" 2 1 3] rfl⟩

/-- Claim C5: at construction the token stream iterator pre-fetches the
first token with a fully expanding Lex; has_next holds exactly when the
pre-fetched lookahead is not the end-of-input sentinel; next returns
the token that was the lookahead and pre-fetches the following token;
and the underlying stream only ever shrinks (one-pass, the main input
cannot be restarted through this interface). -/
theorem tokenIterator_lookahead (pp0 : LexState) (it : TokenIteratorImpl) :
    (TokenIteratorImpl.create pp0).m_next = (lexExpanded pp0).1 ∧
    (TokenIteratorImpl.create pp0).pp = (lexExpanded pp0).2 ∧
    (it.has_next = true ↔ it.m_next.kind ≠ TokKind.eof) ∧
    it.next.1 = it.m_next ∧
    it.next.2.m_next = (lexExpanded it.pp).1 ∧
    it.next.2.pp = (lexExpanded it.pp).2 ∧
    it.next.2.pp.tokens.length ≤ it.pp.tokens.length := by
  refine ⟨rfl, rfl, ?_, rfl, rfl, rfl, ?_⟩
  · simp [TokenIteratorImpl.has_next]
  · show (lexExpanded it.pp).2.tokens.length ≤ it.pp.tokens.length
    cases hpp : it.pp with
    | mk ts =>
        cases ts with
        | nil => simp [lexExpanded]
        | cons a as => simp [lexExpanded]

/-- The tokenize collection loop is exactly a takeWhile with the
same-unit non-eof guard. -/
theorem tokenizeLoop_eq_takeWhile (fid : Nat) :
    ∀ l : List Token, tokenizeLoop fid l = l.takeWhile (tokenFromUnit fid) := by
  intro l
  induction l with
  | nil => rfl
  | cons t ts ih =>
      rw [tokenizeLoop, List.takeWhile_cons]
      cases h : tokenFromUnit fid t <;> simp [h, ih]

/-- Claim C6: tokenize lexes the input as a fresh ephemeral source unit
with unexpanded lexing (the collected tokens are exactly raw lexed
tokens, returned unmodified, so macro names stay plain identifiers) and
collects until end-of-unit or until a lookahead token originates from a
different source unit; tokenize of the empty string returns an empty
sequence without error. -/
theorem tokenize_spec (fid : Nat) (entered : Bool) (unitTokens queued : List Token)
    (s : String) :
    tokenize "" fid entered unitTokens queued = [] ∧
    (s.isEmpty = false →
      tokenize s fid true unitTokens queued =
        (unitTokens ++ queued).takeWhile (tokenFromUnit fid)) ∧
    (s.isEmpty = false →
      (∀ t ∈ unitTokens, tokenFromUnit fid t = true) →
      (∀ t ∈ queued.take 1, tokenFromUnit fid t = false) →
      tokenize s fid true unitTokens queued = unitTokens) := by
  have hTW : ∀ ut : List Token, (∀ t ∈ ut, tokenFromUnit fid t = true) →
      (∀ t ∈ queued.take 1, tokenFromUnit fid t = false) →
      (ut ++ queued).takeWhile (tokenFromUnit fid) = ut := by
    intro ut
    induction ut with
    | nil =>
        intro _ hq
        cases hq2 : queued with
        | nil => rfl
        | cons a as =>
            have ha : tokenFromUnit fid a = false := by
              apply hq
              rw [hq2]
              exact List.mem_singleton.mpr rfl
            simp [List.takeWhile_cons, ha]
    | cons b bs ih =>
        intro hut hq
        have hb : tokenFromUnit fid b = true := hut b (List.mem_cons_self b bs)
        simp only [List.cons_append, List.takeWhile_cons, hb, if_true]
        rw [ih (fun t ht => hut t (List.mem_cons_of_mem b ht)) hq]
  refine ⟨rfl, ?_, ?_⟩
  · intro hs
    simp [tokenize, hs, tokenizeLoop_eq_takeWhile]
  · intro hs hut hq
    simp [tokenize, hs, tokenizeLoop_eq_takeWhile, hTW unitTokens hut hq]

theorem tokenize_spec_witness :
    ("x".isEmpty = false) ∧
    (∀ t ∈ [identTok "x" 7 1 1], tokenFromUnit 7 t = true) ∧
    (∀ t ∈ [identTok "q" 3 9 9].take 1, tokenFromUnit 7 t = false) ∧
    tokenize "x" 7 true [identTok "x" 7 1 1] [identTok "q" 3 9 9] =
      [identTok "x" 7 1 1] :=
  ⟨by decide, by decide, by decide,
   (tokenize_spec 7 true [identTok "x" 7 1 1] [identTok "q" 3 9 9] "x").2.2
     (by decide) (by decide) (by decide)⟩

/-- Once the line cursor has started (is positive), the format loop of
the code agrees step by step with the amended layout walk. -/
theorem formatGo_eq_amendedGo_started :
    ∀ (tokens : List Token) (cc cl : Nat), 1 ≤ cl →
      (∀ t ∈ tokens, t.loc.isValid = true → 1 ≤ t.loc.line) →
      formatGo cl cc tokens = formatAmendedGo (some cl) cc tokens := by
  intro tokens
  induction tokens with
  | nil => intro cc cl _ _; rfl
  | cons t ts ih =>
      intro cc cl h1 h2
      have hts : ∀ u ∈ ts, u.loc.isValid = true → 1 ≤ u.loc.line :=
        fun u hu => h2 u (List.mem_cons_of_mem t hu)
      by_cases hv : t.loc.isValid = true
      · have h0 : 0 < cl := h1
        by_cases hl : t.loc.line > cl
        · simp only [formatGo, formatAmendedGo, hv, hl, h0, and_self, if_true]
          rw [ih _ t.loc.line (by omega) hts]
        · simp only [formatGo, formatAmendedGo, hv, hl, false_and, if_false, if_true]
          rw [ih _ cl h1 hts]
      · simp [formatGo, formatAmendedGo, hv]
        exact ih _ _ h1 hts

/-- From the not-yet-started cursor, the format loop of the code agrees
with the amended layout walk, provided resolvable tokens have 1-based
lines (as clang presumed locations do). -/
theorem formatGo_eq_amendedGo_start :
    ∀ (tokens : List Token) (cc : Nat),
      (∀ t ∈ tokens, t.loc.isValid = true → 1 ≤ t.loc.line) →
      formatGo 0 cc tokens = formatAmendedGo none cc tokens := by
  intro tokens
  induction tokens with
  | nil => intro cc _; rfl
  | cons t ts ih =>
      intro cc h
      have hts : ∀ u ∈ ts, u.loc.isValid = true → 1 ≤ u.loc.line :=
        fun u hu => h u (List.mem_cons_of_mem t hu)
      by_cases hv : t.loc.isValid = true
      · have hline : 1 ≤ t.loc.line := h t (List.mem_cons_self t ts) hv
        have hl0 : 0 < t.loc.line := hline
        simp only [formatGo, formatAmendedGo, hv, hl0, Nat.lt_irrefl, and_false,
          if_false, if_true]
        rw [formatGo_eq_amendedGo_started ts _ t.loc.line hline hts]
        simp
      · simp [formatGo, formatAmendedGo, hv]
        exact ih _ hts

/-- Claim C7, amended: format walks the tokens with a cursor whose line
starts not-yet-started and whose column starts at 1; a resolvable token
emits (line - cursorLine) newlines and resets the column cursor to 1
when its line exceeds a started cursor line (no newlines are ever
emitted before the first resolvable token), emits (column -
cursorColumn) spaces when its column exceeds the cursor column, then
emits its spelling and advances the column cursor by the spelling
length; unresolvable tokens produce no output and leave the cursor
unchanged. -/
theorem format_eq_formatAmended (tokens : List Token)
    (h : ∀ t ∈ tokens, t.loc.isValid = true → 1 ≤ t.loc.line) :
    format tokens = formatAmended tokens :=
  formatGo_eq_amendedGo_start tokens 1 h

theorem format_eq_formatAmended_witness :
    (∀ t ∈ [identTok "ab" 0 1 3, identTok "c" 0 3 1],
      t.loc.isValid = true → 1 ≤ t.loc.line) ∧
    format [identTok "ab" 0 1 3, identTok "c" 0 3 1] =
      formatAmended [identTok "ab" 0 1 3, identTok "c" 0 3 1] :=
  ⟨by decide,
   format_eq_formatAmended [identTok "ab" 0 1 3, identTok "c" 0 3 1] (by decide)⟩

/-- Claim C7 counterexample: on a single resolvable token at line 1,
column 1, the code emits just the spelling, while the claim formula
(line exceeds the not-yet-started cursor line 0, so emit line - 0
newlines and reset the column) emits a leading newline. -/
theorem format_claim_counterexample :
    format [identTok "x" 0 1 1] = "x" ∧
    formatClaim [identTok "x" 0 1 1] = "\nx" ∧
    format [identTok "x" 0 1 1] ≠ formatClaim [identTok "x" 0 1 1] := by
  refine ⟨?_, ?_, ?_⟩ <;> decide

/-- Indexing into a list past a prefix of known length. -/
theorem getD_append_length (n l2 : List Char) (k : Nat) (d : Char) :
    (n ++ l2).getD (n.length + k) d = l2.getD k d := by
  induction n with
  | nil => simp
  | cons a as ih =>
      show (a :: (as ++ l2)).getD (as.length + 1 + k) d = l2.getD k d
      have he : as.length + 1 + k = (as.length + k) + 1 := by omega
      rw [he, List.getD_cons_succ, ih]

/-- A character search misses on a list not containing it. -/
theorem findCharIdx_eq_none (c : Char) :
    ∀ (l : List Char) (i : Nat), c ∉ l → findCharIdx c l i = none := by
  intro l
  induction l with
  | nil => intro i _; rfl
  | cons a as ih =>
      intro i h
      rw [findCharIdx, if_neg (fun e => h (by rw [← e]; exact List.mem_cons_self a as))]
      exact ih (i + 1) (fun m => h (List.mem_cons_of_mem a m))

/-- A character search finds the first occurrence just past a prefix
free of the character. -/
theorem findCharIdx_append (c : Char) :
    ∀ (n l2 : List Char) (i : Nat), c ∉ n →
      findCharIdx c (n ++ c :: l2) i = some (i + n.length) := by
  intro n
  induction n with
  | nil => intro l2 i _; simp [findCharIdx]
  | cons a as ih =>
      intro l2 i h
      rw [List.cons_append, findCharIdx,
        if_neg (fun e => h (by rw [← e]; exact List.mem_cons_self a as)),
        ih l2 (i + 1) (fun m => h (List.mem_cons_of_mem a m))]
      congr 1
      simp only [List.length_cons]
      omega

/-- The space-skipping loop stops at once on a non-space character. -/
theorem skipSpaces_stop (chars : List Char) (rparen start : Nat)
    (h : chars.getD start spChar ≠ spChar) :
    skipSpaces chars rparen start = start := by
  rw [skipSpaces]
  exact dif_neg (fun hc => h hc.2)

/-- The signature parsing loop fails as soon as the cursor (after space
skipping) rests on a comma: the bare-comma definition-syntax error. -/
theorem parseArgsLoop_error_at_comma (chars : List Char) (rparen start : Nat)
    (h : start < rparen)
    (hc : chars.getD (skipSpaces chars rparen start) spChar = ',') :
    ∃ msg, parseArgsLoop chars rparen start = Except.error msg := by
  refine ⟨"Expected character other than comma at column " ++
    toString (skipSpaces chars rparen start), ?_⟩
  rw [parseArgsLoop, dif_pos h, if_pos hc]

/-- Claim C9: a bare comma with no preceding identifier is a
definition-syntax failure (first conjunct: in general, whenever the
parser cursor rests on a comma after space skipping; second conjunct:
at define level, for every signature whose parameter list starts with a
comma), and a name ending in a closing paren without an opening paren
makes define fail (third conjunct); in each case define propagates an
error outcome (a thrown exception), so no macro is defined. -/
theorem define_signature_syntax_errors (mt : MacroTable) (vt : List Token)
    (name : String) (n rest : List Char) :
    (∀ (chars : List Char) (rparen start : Nat), start < rparen →
      chars.getD (skipSpaces chars rparen start) spChar = ',' →
      ∃ msg, parseArgsLoop chars rparen start = Except.error msg) ∧
    (name.toList = n ++ '(' :: ',' :: rest ++ [')'] → '(' ∉ n →
      ∃ msg, define mt name vt = DefineOutcome.error msg) ∧
    (name.toList.getLast? = some ')' → '(' ∉ name.toList →
      ∃ msg, define mt name vt = DefineOutcome.error msg) := by
  refine ⟨parseArgsLoop_error_at_comma, ?_, ?_⟩
  · intro h1 h2
    have hlast : name.toList.getLast? = some ')' := by
      rw [h1, show n ++ '(' :: ',' :: rest ++ [')'] =
        (n ++ '(' :: ',' :: rest) ++ [')'] by simp]
      exact List.getLast?_concat _
    have hfind : findCharFrom name.toList '(' 0 = some n.length := by
      unfold findCharFrom
      rw [List.drop_zero, h1]
      have := findCharIdx_append '(' n (',' :: rest ++ [')']) 0 h2
      simpa using this
    have hlen : name.toList.length = n.length + rest.length + 3 := by
      rw [h1]
      simp only [List.length_append, List.length_cons, List.length_nil]
      omega
    have hgetD : name.toList.getD (n.length + 1) spChar = ',' := by
      rw [h1]
      have := getD_append_length n ('(' :: ',' :: rest ++ [')']) 1 spChar
      simpa using this
    have hskip : skipSpaces name.toList (name.toList.length - 1) (n.length + 1) =
        n.length + 1 :=
      skipSpaces_stop _ _ _ (by rw [hgetD]; decide)
    obtain ⟨msg, hmsg⟩ := parseArgsLoop_error_at_comma name.toList
      (name.toList.length - 1) (n.length + 1) (by omega) (by rw [hskip]; exact hgetD)
    refine ⟨msg, ?_⟩
    simp only [define]
    rw [if_pos hlast]
    simp only [hfind, hmsg]
  · intro h1 h2
    refine ⟨"Name ends with a closing paren but has no matching opening paren", ?_⟩
    have hfind : findCharFrom name.toList '(' 0 = none := by
      unfold findCharFrom
      rw [List.drop_zero]
      exact findCharIdx_eq_none '(' name.toList 0 h2
    simp only [define]
    rw [if_pos h1]
    simp only [hfind]

theorem define_signature_syntax_errors_witness :
    ("SQ(,a)".toList = ['S', 'Q'] ++ '(' :: ',' :: ['a'] ++ [')'] ∧
     ∃ msg, define [] "SQ(,a)" [] = DefineOutcome.error msg) ∧
    ("SQ)".toList.getLast? = some ')' ∧
     ∃ msg, define [] "SQ)" [] = DefineOutcome.error msg) :=
  ⟨⟨by decide,
    (define_signature_syntax_errors [] [] "SQ(,a)" ['S', 'Q'] ['a']).2.1
      (by decide) (by decide)⟩,
   ⟨by decide,
    (define_signature_syntax_errors [] [] "SQ)" ['S', 'Q'] ['a']).2.2
      (by decide) (by decide)⟩⟩

end Cmonster
